import Mathlib

/-!
Verification development for the `Unix4ever/statsd` Go package.

The package has two parts:
* `sink.go`: `StatsdSink`, a bounded channel of rendered metric strings
  (`make(chan string, 4096)`), a non-blocking producer push (`PushMetric`),
  a shutdown that closes the channel (`Shutdown`), and a background worker
  (`flushMetrics`) that batches metrics into a packet buffer bounded by
  `statsdMaxLen`, flushes on a ticker, reconnects on another ticker and
  backs off for five seconds after transport errors.
* `client.go`: `StatsdClient`, pure rendering of one metric per call
  (`Incr`, `Decr`, `Gauge`, `GaugeDelta`, `FGauge`, `FGaugeDelta`, ...),
  `%HOST%` substitution via `strings.Replace(s, "%HOST%", Hostname, 1)`,
  and submission to the sink through `PushMetric`.

Strings are embedded as `List Char` (the metrics in the repository are
ASCII, so Go's byte length coincides with the character count).
-/

abbrev Str := List Char

/-! ## The worker of `sink.go` (`flushMetrics`, lines 48-126)

The worker is a loop over labelled regions (`CONNECT`, `RECONNECT`, the
`ACTIVE` select loop, `WAIT`, `QUIT`).  We embed it as a state machine:
the phase records which region the loop is in, and every external
occurrence the Go `select` can observe (a queue receive, a queue close, a
ticker firing, the outcome of `net.Dial` or `sock.Write`) is an event.
`sent` records every byte slice handed to `sock.Write`, in order,
whether or not the write then reports an error. -/

inductive Phase
  | connecting
  | active
  | waiting
  | stopped
  deriving DecidableEq

/-- Worker-owned state: the current region of `flushMetrics`, the packet
buffer `buf`, and the datagrams handed to the transport so far. -/
structure SinkState where
  phase : Phase
  buf : Str
  sent : List Str
  deriving DecidableEq

/-- Events observed by the `flushMetrics` loop.  Write and dial outcomes
are carried on the event, playing the role of the network oracle. -/
inductive Ev
  | metric (m : Str) (writeOk : Bool)
  | queueClosed
  | flushTick (writeOk : Bool)
  | reconnectTick
  | dialResult (ok : Bool)
  | waitElapsed
  deriving DecidableEq

/-- One iteration of `flushMetrics` (sink.go lines 58-126).

* `connecting` is the `RECONNECT` label: `net.Dial` succeeds into the
  `ACTIVE` select loop, or fails into `WAIT`; the buffer is untouched.
* `active` is the select loop.  A received metric whose length added to
  `buf.Len()` exceeds `statsdMaxLen` first sends the buffer and resets
  it; a write error jumps to `WAIT` (dropping the metric), otherwise the
  metric is appended, with a `'\n'` separator when the buffer is
  non-empty (after a flush the buffer is empty, so no separator).  The
  flush ticker sends a non-empty buffer and resets it, jumping to `WAIT`
  on error.  The reconnect ticker jumps to the `RECONNECT` label, which
  does NOT recreate the buffer (only the `CONNECT` label does).
  A closed queue jumps to `QUIT`.
* `waiting` is the `WAIT` loop: received metrics are read and discarded,
  a closed queue jumps to `QUIT`, and when the five-second timer fires
  the loop re-enters through the `CONNECT` label, which creates a fresh
  (empty) buffer before dialling.
* `stopped` is `QUIT`. -/
def flushStep (maxLen : Nat) : SinkState → Ev → SinkState
  | ⟨.connecting, buf, sent⟩, .dialResult ok =>
    if ok then ⟨.active, buf, sent⟩ else ⟨.waiting, buf, sent⟩
  | ⟨.connecting, buf, sent⟩, _ => ⟨.connecting, buf, sent⟩
  | ⟨.active, buf, sent⟩, .metric m writeOk =>
    if m.length + buf.length > maxLen then
      if writeOk then ⟨.active, m, sent ++ [buf]⟩
      else ⟨.waiting, [], sent ++ [buf]⟩
    else ⟨.active, if buf.length > 0 then buf ++ '\n' :: m else m, sent⟩
  | ⟨.active, buf, sent⟩, .queueClosed => ⟨.stopped, buf, sent⟩
  | ⟨.active, buf, sent⟩, .flushTick writeOk =>
    if buf.length = 0 then ⟨.active, buf, sent⟩
    else if writeOk then ⟨.active, [], sent ++ [buf]⟩
    else ⟨.waiting, [], sent ++ [buf]⟩
  | ⟨.active, buf, sent⟩, .reconnectTick => ⟨.connecting, buf, sent⟩
  | ⟨.active, buf, sent⟩, _ => ⟨.active, buf, sent⟩
  | ⟨.waiting, buf, sent⟩, .queueClosed => ⟨.stopped, buf, sent⟩
  | ⟨.waiting, _, sent⟩, .waitElapsed => ⟨.connecting, [], sent⟩
  | ⟨.waiting, buf, sent⟩, _ => ⟨.waiting, buf, sent⟩
  | ⟨.stopped, buf, sent⟩, _ => ⟨.stopped, buf, sent⟩

/-- `flushMetrics` enters at the `CONNECT` label: a fresh empty buffer,
about to dial. -/
def initState : SinkState := ⟨.connecting, [], []⟩

/-- Run the worker over a sequence of observed events. -/
def flushRun (maxLen : Nat) (evs : List Ev) : SinkState :=
  evs.foldl (flushStep maxLen) initState

/-- Length of the metric carried by an event (0 for non-metric events);
used to state per-metric size hypotheses. -/
def evLen : Ev → Nat
  | .metric m _ => m.length
  | _ => 0

/-! ## The producer side of `sink.go`: the metric queue -/

/-- The Go channel of rendered metrics (`make(chan string, 4096)`,
sink.go line 26) as the producer sees it: buffered contents, capacity,
and whether `close` has been called. -/
structure MetricChan where
  buf : List Str
  cap : Nat
  closed : Bool
  deriving DecidableEq

/-- Outcome of the `select` in `PushMetric` (sink.go lines 41-45):
either the send case fires (`pushed`), or the channel buffer is full and
the `default` case fires (`dropped`), or the channel is closed — in Go a
send on a closed channel is always ready inside a `select`, and
proceeding with it panics at run time (`panicked`). -/
inductive PushOutcome
  | pushed (c : MetricChan)
  | dropped (c : MetricChan)
  | panicked
  deriving DecidableEq

/-- `PushMetric` (sink.go lines 40-46): the non-blocking select-send. -/
def PushMetric (c : MetricChan) (m : Str) : PushOutcome :=
  if c.closed then .panicked
  else if c.buf.length < c.cap then .pushed ⟨c.buf ++ [m], c.cap, c.closed⟩
  else .dropped c

/-- `Shutdown` (sink.go lines 35-37): closes the metric queue. -/
def Shutdown (c : MetricChan) : MetricChan := ⟨c.buf, c.cap, true⟩

/-- The queue `NewStatsdSink` creates (sink.go line 26). -/
def newMetricQueue : MetricChan := ⟨[], 4096, false⟩

/-! ## The client (`client.go`) -/

/-- The `%HOST%` placeholder token (client.go lines 38 and 154). -/
def HOSTtok : Str := "%HOST%".data

/-- `matchPre pat s` decides whether `pat` is a leading pattern of `s`:
the positional test Go's `strings.Replace` performs while scanning. -/
def matchPre : Str → Str → Bool
  | [], _ => true
  | _ :: _, [] => false
  | p :: ps, c :: cs => p == c && matchPre ps cs

/-- Go `strings.Replace(s, pat, rep, 1)`: replace the first (leftmost)
occurrence of `pat` in `s` with `rep` and leave the rest unchanged. -/
def replaceFirst : Str → Str → Str → Str
  | [], pat, rep => if matchPre pat [] then rep else []
  | c :: rest, pat, rep =>
    if matchPre pat (c :: rest) then rep ++ (c :: rest).drop pat.length
    else c :: replaceFirst rest pat rep

/-- Whether `pat` occurs somewhere in `s` (Go `strings.Contains`); used
to state when `strings.Replace` finds an occurrence to replace. -/
def hasSub : Str → Str → Bool
  | [], pat => matchPre pat []
  | s@(_ :: rest), pat => matchPre pat s || hasSub rest pat

/-- `StatsdClient` (client.go lines 29-34).  The `Logger` and the sink
handle play no part in rendering and are omitted; the Go field `prefix`
is named `pfx` here. -/
structure StatsdClient where
  addr : Str
  pfx : Str
  deriving DecidableEq

/-- `NewStatsdClient` (client.go lines 37-48): at construction the first
`%HOST%` occurrence in the configured prefix is replaced with the
hostname.  The process-global `Hostname` of client.go line 19 is
threaded through as the explicit `host` argument. -/
def NewStatsdClient (host addr p : Str) : StatsdClient :=
  ⟨addr, replaceFirst p HOSTtok host⟩

/-- Go `fmt` `%d` rendering of an `int64`: signed decimal. -/
def intFmt (i : Int) : Str := (toString i).data

/-- `send` (client.go lines 153-160), returning the rendered metric that
is pushed to the sink.  The Go code splices prefix, substituted stat and
the value verb into one `fmt` format string and formats the value
through it; for prefixes and stats that contain no `%` verb after the
`%HOST%` substitution (the spec's well-formed inputs) the result is the
plain concatenation `prefix ++ stat ++ ":" ++ renderedValue`, which is
what this embedding produces. -/
def send (c : StatsdClient) (host stat valueText : Str) : Str :=
  c.pfx ++ (replaceFirst stat HOSTtok host ++ ':' :: valueText)

/-- A Go `float64`, restricted to what `FGauge` and `FGaugeDelta` do
with one: `neg` is the Go comparison `value < 0` and `txt` the `fmt`
`%g` rendering of the value. -/
structure GoFloat where
  neg : Bool
  txt : Str
  deriving DecidableEq

/-- The float `0.0`: `0.0 < 0` is false and `%g` renders it `"0"`. -/
def GoFloat.zero : GoFloat := ⟨false, "0".data⟩

/-- `Incr` (client.go lines 70-75): the metrics pushed to the sink —
none for a zero count (the Go function returns nil without sending). -/
def Incr (c : StatsdClient) (host stat : Str) (count : Int) : List Str :=
  if count ≠ 0 then [send c host stat (intFmt count ++ "|c".data)] else []

/-- `Decr` (client.go lines 78-83): like `Incr` with the count negated. -/
def Decr (c : StatsdClient) (host stat : Str) (count : Int) : List Str :=
  if count ≠ 0 then [send c host stat (intFmt (-count) ++ "|c".data)] else []

/-- `Gauge` (client.go lines 103-109): a negative set value is preceded
by a reset of the gauge to zero. -/
def Gauge (c : StatsdClient) (host stat : Str) (value : Int) : List Str :=
  if value < 0 then
    [send c host stat (intFmt 0 ++ "|g".data),
      send c host stat (intFmt value ++ "|g".data)]
  else [send c host stat (intFmt value ++ "|g".data)]

/-- `GaugeDelta` (client.go lines 112-118): the `-` of a negative delta
renders itself; the `+` of a non-negative delta is added by hand. -/
def GaugeDelta (c : StatsdClient) (host stat : Str) (value : Int) : List Str :=
  if value < 0 then [send c host stat (intFmt value ++ "|g".data)]
  else [send c host stat ('+' :: (intFmt value ++ "|g".data))]

/-- `FGauge` (client.go lines 121-127): floating-point `Gauge`; the
reset packet uses the integer verb, hence `"0"`. -/
def FGauge (c : StatsdClient) (host stat : Str) (value : GoFloat) : List Str :=
  if value.neg then
    [send c host stat (intFmt 0 ++ "|g".data),
      send c host stat (value.txt ++ "|g".data)]
  else [send c host stat (value.txt ++ "|g".data)]

/-- `FGaugeDelta` (client.go lines 130-135): floating-point
`GaugeDelta`. -/
def FGaugeDelta (c : StatsdClient) (host stat : Str) (value : GoFloat) : List Str :=
  if value.neg then [send c host stat (value.txt ++ "|g".data)]
  else [send c host stat ('+' :: (value.txt ++ "|g".data))]


/-! ## Theorems -/

/-- Size invariant preserved by one worker step: when the arriving
metric (if any) is at most `maxLen` long, the buffer and every sent
datagram stay within `maxLen + 1` bytes (the `+ 1` is the `'\n'`
separator, which the overflow check of sink.go line 78 does not count). -/
lemma flushStep_size_inv (maxLen : Nat) (s : SinkState) (e : Ev)
    (he : evLen e ≤ maxLen)
    (hbuf : s.buf.length ≤ maxLen + 1)
    (hsent : ∀ d ∈ s.sent, d.length ≤ maxLen + 1) :
    (flushStep maxLen s e).buf.length ≤ maxLen + 1
      ∧ ∀ d ∈ (flushStep maxLen s e).sent, d.length ≤ maxLen + 1 := by
  rcases s with ⟨ph, buf, sent⟩
  have hbuf' : buf.length ≤ maxLen + 1 := hbuf
  have hsent' : ∀ d ∈ sent, d.length ≤ maxLen + 1 := hsent
  have hsend : ∀ d ∈ sent ++ [buf], d.length ≤ maxLen + 1 := by
    intro d hd
    rcases List.mem_append.1 hd with h | h
    · exact hsent' d h
    · rw [List.mem_singleton.1 h]; exact hbuf'
  clear hbuf hsent
  cases ph <;> cases e <;>
    simp only [evLen] at he <;>
    simp only [flushStep] <;>
    (try split_ifs) <;>
    refine ⟨?_, ?_⟩ <;>
    first
      | exact hsent'
      | exact hsend
      | exact hbuf'
      | (simp only [List.length_append, List.length_cons, List.length_nil]; omega)

/-- The size invariant carried over a whole run from any state enjoying it. -/
lemma flushRun_size_inv (maxLen : Nat) (evs : List Ev)
    (h : ∀ e ∈ evs, evLen e ≤ maxLen) :
    ∀ s : SinkState, s.buf.length ≤ maxLen + 1 →
      (∀ d ∈ s.sent, d.length ≤ maxLen + 1) →
      (evs.foldl (flushStep maxLen) s).buf.length ≤ maxLen + 1
        ∧ ∀ d ∈ (evs.foldl (flushStep maxLen) s).sent, d.length ≤ maxLen + 1 := by
  induction evs with
  | nil => exact fun s hb hs => ⟨hb, hs⟩
  | cons e evs ih =>
    intro s hb hs
    have he : evLen e ≤ maxLen := h e (List.mem_cons_self e evs)
    have h' : ∀ e' ∈ evs, evLen e' ≤ maxLen :=
      fun e' he' => h e' (List.mem_cons_of_mem e he')
    have step := flushStep_size_inv maxLen s e he hb hs
    exact ih h' (flushStep maxLen s e) step.1 step.2

/-- C1 counterexample: with `statsdMaxLen = 10` and metrics `"aaaaa"`,
`"bbbbb"`, `"c"` (each at most 10 bytes), the worker appends
`"bbbbb"` without flushing (the check `5 + 5 > 10` fails because the
`'\n'` separator is not counted), so the buffer reaches 11 bytes and the
datagram later handed to the transport is 11 bytes, exceeding the
configured maximum size of 10. -/
theorem flushMetrics_packet_size_cex :
    (flushRun 10 [.dialResult true, .metric "aaaaa".data true,
        .metric "bbbbb".data true, .metric "c".data true]).sent
      = ["aaaaa\nbbbbb".data]
    ∧ ("aaaaa\nbbbbb".data).length = 11 := by decide

/-- C1 (amended): when an arriving metric would make
`len(metric) + buf.Len()` exceed `statsdMaxLen`, the buffered bytes are
handed to the transport first; and, provided every single metric is at
most `statsdMaxLen` bytes, every datagram handed to the transport is at
most `statsdMaxLen + 1` bytes (the newline separator is not counted by
the overflow check, so the bound is `maxLen + 1`, not `maxLen`). -/
theorem flushMetrics_packet_size (maxLen : Nat) :
    (∀ (s : SinkState) (m : Str) (w : Bool), s.phase = .active →
        m.length + s.buf.length > maxLen →
        (flushStep maxLen s (.metric m w)).sent = s.sent ++ [s.buf])
    ∧ (∀ evs : List Ev, (∀ e ∈ evs, evLen e ≤ maxLen) →
        ∀ d ∈ (flushRun maxLen evs).sent, d.length ≤ maxLen + 1) := by
  constructor
  · intro s m w hph hov
    rcases s with ⟨ph, buf, sent⟩
    cases hph
    simp only [flushStep]
    rw [if_pos hov]
    split_ifs <;> rfl
  · intro evs h
    exact (flushRun_size_inv maxLen evs h initState (by simp [initState])
      (by simp [initState])).2

/-- Witness for C1 at concrete inputs: an overflow flush with
`maxLen = 10`, buffer `"aaaaa"` and metric `"bbbbbb"`, and the datagram
bound on a concrete run. -/
theorem flushMetrics_packet_size_witness :
    (flushStep 10 ⟨.active, "aaaaa".data, []⟩ (.metric "bbbbbb".data true)).sent
        = [] ++ ["aaaaa".data]
    ∧ ("aaaaa\nbbbbb".data).length ≤ 10 + 1 :=
  ⟨(flushMetrics_packet_size 10).1 ⟨.active, "aaaaa".data, []⟩ "bbbbbb".data true
      rfl (by decide),
    (flushMetrics_packet_size 10).2
      [.dialResult true, .metric "aaaaa".data true,
        .metric "bbbbb".data true, .metric "c".data true]
      (by decide) ("aaaaa\nbbbbb".data) (by decide)⟩

/-- C3 counterexample: after buffering `"abc"` in the ACTIVE state, the
reconnect ticker fires (`goto RECONNECT`, sink.go line 107) and the dial
succeeds, yet the worker re-enters ACTIVE with the buffer still holding
`"abc"` — the buffer is only recreated at the `CONNECT` label, which the
reconnect path skips. -/
theorem connect_clears_buffer_cex :
    (flushRun 10 [.dialResult true, .metric "abc".data true,
        .reconnectTick, .dialResult true]).phase = .active
    ∧ (flushRun 10 [.dialResult true, .metric "abc".data true,
        .reconnectTick, .dialResult true]).buf = "abc".data
    ∧ "abc".data ≠ ([] : Str) := by decide

/-- C3 (amended): the packet buffer is empty when the worker enters
ACTIVE through the `CONNECT` label (the initial entry and the re-entry
after a backoff wait); but when the reconnect ticker fires the worker
re-dials through the `RECONNECT` label and the buffer is preserved, so
bytes buffered before a forced periodic reconnect survive into the new
connection. -/
theorem connect_clears_buffer (maxLen : Nat) (s : SinkState) :
    (s.phase = .waiting →
      flushStep maxLen (flushStep maxLen s .waitElapsed) (.dialResult true)
        = ⟨.active, [], s.sent⟩)
    ∧ (s.phase = .active →
      flushStep maxLen (flushStep maxLen s .reconnectTick) (.dialResult true)
        = ⟨.active, s.buf, s.sent⟩)
    ∧ initState.buf = [] := by
  rcases s with ⟨ph, buf, sent⟩
  refine ⟨?_, ?_, rfl⟩ <;> intro h <;> cases h <;> rfl

/-- Witness for C3 at a concrete state with a non-empty buffer. -/
theorem connect_clears_buffer_witness :
    flushStep 10 (flushStep 10 ⟨.waiting, "xy".data, []⟩ .waitElapsed)
        (.dialResult true) = ⟨.active, [], []⟩
    ∧ flushStep 10 (flushStep 10 ⟨.active, "xy".data, []⟩ .reconnectTick)
        (.dialResult true) = ⟨.active, "xy".data, []⟩ :=
  ⟨(connect_clears_buffer 10 ⟨.waiting, "xy".data, []⟩).1 rfl,
    (connect_clears_buffer 10 ⟨.active, "xy".data, []⟩).2.1 rfl⟩

/-- C8: in the `WAIT` loop (BACKOFF), no event causes a transport
write (`sent` never changes); every metric received from the queue is
discarded, leaving the state unchanged; a closed queue moves the worker
to `QUIT` (STOPPED); and when the cool-down timer fires the worker
returns to the `CONNECT` label (CONNECTING), with a fresh empty buffer. -/
theorem backoff_drains_queue (maxLen : Nat) (s : SinkState) (e : Ev)
    (h : s.phase = .waiting) :
    (flushStep maxLen s e).sent = s.sent
    ∧ (∀ m w, e = .metric m w → flushStep maxLen s e = s)
    ∧ (e = .queueClosed → (flushStep maxLen s e).phase = .stopped)
    ∧ (e = .waitElapsed →
        (flushStep maxLen s e).phase = .connecting
          ∧ (flushStep maxLen s e).buf = []) := by
  rcases s with ⟨ph, buf, sent⟩
  cases h
  cases e <;> simp [flushStep]

/-- Witness for C8 at a concrete backoff state, covering a discarded
metric, a queue closure and the elapsed cool-down. -/
theorem backoff_drains_queue_witness :
    (flushStep 10 ⟨.waiting, "q".data, ["d".data]⟩ (.metric "m".data true)).sent
        = ["d".data]
    ∧ flushStep 10 ⟨.waiting, "q".data, ["d".data]⟩ (.metric "m".data true)
        = ⟨.waiting, "q".data, ["d".data]⟩
    ∧ (flushStep 10 ⟨.waiting, "q".data, ["d".data]⟩ .queueClosed).phase = .stopped
    ∧ (flushStep 10 ⟨.waiting, "q".data, ["d".data]⟩ .waitElapsed).phase
        = .connecting :=
  ⟨(backoff_drains_queue 10 ⟨.waiting, "q".data, ["d".data]⟩
      (.metric "m".data true) rfl).1,
    (backoff_drains_queue 10 ⟨.waiting, "q".data, ["d".data]⟩
      (.metric "m".data true) rfl).2.1 "m".data true rfl,
    (backoff_drains_queue 10 ⟨.waiting, "q".data, ["d".data]⟩
      .queueClosed rfl).2.2.1 rfl,
    ((backoff_drains_queue 10 ⟨.waiting, "q".data, ["d".data]⟩
      .waitElapsed rfl).2.2.2 rfl).1⟩

/-- C9: in the ACTIVE state, when the arriving metric would overflow the
buffer and the resulting write fails, the worker resets the buffer
(`buf.Reset()` runs before the error check, sink.go lines 80-85) and
jumps to `WAIT` without appending the arriving metric — the resulting
state does not contain the metric at all, so it is lost even though the
queue had accepted it; a failed flush-ticker write likewise resets the
buffer before jumping to `WAIT`, discarding the buffered metrics. -/
theorem active_write_error_drops (maxLen : Nat) (s : SinkState) (m : Str)
    (h : s.phase = .active) :
    (m.length + s.buf.length > maxLen →
      flushStep maxLen s (.metric m false) = ⟨.waiting, [], s.sent ++ [s.buf]⟩)
    ∧ (s.buf ≠ [] →
      flushStep maxLen s (.flushTick false) = ⟨.waiting, [], s.sent ++ [s.buf]⟩) := by
  rcases s with ⟨ph, buf, sent⟩
  cases h
  constructor
  · intro hov
    simp only [flushStep]
    rw [if_pos hov]
    rfl
  · intro hne
    simp [flushStep, List.length_eq_zero, hne]

/-- Witness for C9: a failed overflow write and a failed timer flush at
a concrete active state with buffer `"abcde"` and `maxLen = 10`. -/
theorem active_write_error_drops_witness :
    flushStep 10 ⟨.active, "abcde".data, []⟩ (.metric "fghijk".data false)
        = ⟨.waiting, [], [] ++ ["abcde".data]⟩
    ∧ flushStep 10 ⟨.active, "abcde".data, []⟩ (.flushTick false)
        = ⟨.waiting, [], [] ++ ["abcde".data]⟩ :=
  ⟨(active_write_error_drops 10 ⟨.active, "abcde".data, []⟩ "fghijk".data rfl).1
      (by decide),
    (active_write_error_drops 10 ⟨.active, "abcde".data, []⟩ "fghijk".data rfl).2
      (by decide)⟩

/-- C2: once `Shutdown` has closed the queue, any `PushMetric` call
panics — the select's send case targets a closed channel, which the Go
runtime treats as ready and panics on (`send on closed channel`).  This
contradicts the claim that the producer call completes without
panicking.  (The worker side of the claim does hold: on queue closure
the ACTIVE loop reaches `QUIT`, see `flushStep` on `.queueClosed`.) -/
theorem PushMetric_after_Shutdown_panics (c : MetricChan) (m : Str) :
    PushMetric (Shutdown c) m = .panicked := rfl

/-- C4: on the live (not yet closed) queue of capacity 4096, a push
appends the metric at the tail when a slot is free and otherwise leaves
the queue unchanged, silently dropping the newest metric; the outcome
carries no error and the modelled select never waits.  The sink's queue
is constructed with capacity 4096 and open. -/
theorem PushMetric_nonblocking (q : List Str) (m : Str) :
    PushMetric ⟨q, 4096, false⟩ m
      = (if q.length < 4096 then PushOutcome.pushed ⟨q ++ [m], 4096, false⟩
          else PushOutcome.dropped ⟨q, 4096, false⟩)
    ∧ newMetricQueue.cap = 4096 ∧ newMetricQueue.closed = false :=
  ⟨rfl, rfl, rfl⟩

/-- `matchPre` holds exactly when the pattern is a leading pattern. -/
lemma matchPre_iff (pat : Str) : ∀ s : Str,
    matchPre pat s = true ↔ ∃ t, s = pat ++ t := by
  induction pat with
  | nil => intro s; simp [matchPre]
  | cons p ps ih =>
    intro s
    cases s with
    | nil => simp [matchPre]
    | cons c cs =>
      rw [show matchPre (p :: ps) (c :: cs) = (p == c && matchPre ps cs) from rfl,
        Bool.and_eq_true, beq_iff_eq, ih]
      constructor
      · rintro ⟨rfl, t, rfl⟩; exact ⟨t, rfl⟩
      · rintro ⟨t, ht⟩
        rw [List.cons_append] at ht
        injection ht with h1 h2
        exact ⟨h1.symm, t, h2⟩

/-- Behaviour of `replaceFirst`: no change without an occurrence; with
an occurrence, the leftmost one and only it is replaced. -/
lemma replaceFirst_spec (pat rep : Str) : ∀ s : Str,
    (hasSub s pat = false → replaceFirst s pat rep = s)
    ∧ (hasSub s pat = true → ∃ a b, s = a ++ pat ++ b
        ∧ replaceFirst s pat rep = a ++ rep ++ b
        ∧ ∀ a' b', s = a' ++ pat ++ b' → a.length ≤ a'.length) := by
  intro s
  induction s with
  | nil =>
    constructor
    · intro h
      simp only [hasSub] at h
      simp [replaceFirst, h]
    · intro h
      simp only [hasSub] at h
      rcases (matchPre_iff pat []).1 h with ⟨t, ht⟩
      have hpat : pat = [] := (List.append_eq_nil.mp ht.symm).1
      subst hpat
      exact ⟨[], [], by simp, by simp [replaceFirst, h], fun a' b' h' => by simp⟩
  | cons c rest ih =>
    by_cases hm : matchPre pat (c :: rest) = true
    · rcases (matchPre_iff pat _).1 hm with ⟨t, ht⟩
      constructor
      · intro h
        exfalso
        simp only [hasSub, hm, Bool.true_or] at h
        exact Bool.noConfusion h
      · intro _
        refine ⟨[], t, by simpa using ht, ?_, fun a' b' h' => by simp⟩
        simp only [replaceFirst, hm, if_true]
        rw [ht, List.drop_left]
        rfl
    · have hstep : replaceFirst (c :: rest) pat rep
          = c :: replaceFirst rest pat rep := by
        simp [replaceFirst, hm]
      have hm' : matchPre pat (c :: rest) = false := by
        simpa using hm
      have hhas : hasSub (c :: rest) pat = hasSub rest pat := by
        simp only [hasSub, hm', Bool.false_or]
      constructor
      · intro h
        rw [hhas] at h
        rw [hstep, ih.1 h]
      · intro h
        rw [hhas] at h
        rcases ih.2 h with ⟨a, b, hsplit, hrepl, hmin⟩
        refine ⟨c :: a, b, by simp [hsplit], by simp [hstep, hrepl], ?_⟩
        intro a' b' h'
        cases a' with
        | nil =>
          exact absurd ((matchPre_iff pat _).2 ⟨b', by simpa using h'⟩) hm
        | cons c' a'' =>
          have h'' : c = c' ∧ rest = a'' ++ (pat ++ b') := by
            simpa using h'
          have h2 : rest = a'' ++ pat ++ b' := by
            rw [List.append_assoc]; exact h''.2
          have := hmin a'' b' h2
          simp only [List.length_cons]
          omega

/-- C7: the `%HOST%` token in a metric name (and, via the same
`strings.Replace` call in `NewStatsdClient`, in the configured prefix)
is replaced with the hostname exactly once and at its first occurrence
only: without an occurrence the name is unchanged; with one, the string
splits as `a ++ HOSTtok ++ b` around the leftmost occurrence, the
result is `a ++ host ++ b` — so a second occurrence, lying inside `b`,
survives verbatim — and the last conjunct records where `send` and
`NewStatsdClient` apply this substitution. -/
theorem hostToken_first_occurrence (s host : Str) :
    (hasSub s HOSTtok = false → replaceFirst s HOSTtok host = s)
    ∧ (hasSub s HOSTtok = true → ∃ a b, s = a ++ HOSTtok ++ b
        ∧ replaceFirst s HOSTtok host = a ++ host ++ b
        ∧ ∀ a' b', s = a' ++ HOSTtok ++ b' → a.length ≤ a'.length)
    ∧ (∀ addr p valueText,
        send (NewStatsdClient host addr p) host s valueText
          = replaceFirst p HOSTtok host
              ++ (replaceFirst s HOSTtok host ++ ':' :: valueText)) :=
  ⟨(replaceFirst_spec HOSTtok host s).1,
    (replaceFirst_spec HOSTtok host s).2,
    fun _ _ _ => rfl⟩

/-- Witness for C7: a token-free name is unchanged; a doubly-tokened
name keeps its second occurrence; the prefix substitution is visible in
a fully rendered metric. -/
theorem hostToken_first_occurrence_witness :
    replaceFirst "a.b".data HOSTtok "h1".data = "a.b".data
    ∧ (∃ a b, "a.%HOST%.%HOST%".data = a ++ HOSTtok ++ b
        ∧ replaceFirst "a.%HOST%.%HOST%".data HOSTtok "h1".data = a ++ "h1".data ++ b
        ∧ ∀ a' b', "a.%HOST%.%HOST%".data = a' ++ HOSTtok ++ b' → a.length ≤ a'.length)
    ∧ send (NewStatsdClient "h1".data "a:1".data "%HOST%.p.".data) "h1".data
        "c".data "1|c".data
      = replaceFirst "%HOST%.p.".data HOSTtok "h1".data
          ++ (replaceFirst "c".data HOSTtok "h1".data ++ ':' :: "1|c".data)
    ∧ replaceFirst "a.%HOST%.%HOST%".data HOSTtok "h1".data
      = "a.h1.%HOST%".data :=
  ⟨(hostToken_first_occurrence "a.b".data "h1".data).1 (by decide),
    (hostToken_first_occurrence "a.%HOST%.%HOST%".data "h1".data).2.1 (by decide),
    (hostToken_first_occurrence "c".data "h1".data).2.2 "a:1".data
      "%HOST%.p.".data "1|c".data,
    by decide⟩

/-- C5: a negative gauge set (integer or floating-point) submits exactly
two metrics, first the zero reset `name:0|g`, then the negative value
`name:value|g`, both rendered by `send` for the same client, host and
stat — hence the same prefixed name; a non-negative set submits exactly
one. -/
theorem gauge_negative_resets (c : StatsdClient) (host stat : Str) (v : Int)
    (f : GoFloat) :
    (v < 0 → Gauge c host stat v
        = [send c host stat (intFmt 0 ++ "|g".data),
            send c host stat (intFmt v ++ "|g".data)])
    ∧ (0 ≤ v → Gauge c host stat v = [send c host stat (intFmt v ++ "|g".data)])
    ∧ (f.neg = true → FGauge c host stat f
        = [send c host stat (intFmt 0 ++ "|g".data),
            send c host stat (f.txt ++ "|g".data)])
    ∧ (f.neg = false → FGauge c host stat f
        = [send c host stat (f.txt ++ "|g".data)]) := by
  refine ⟨fun h => ?_, fun h => ?_, fun h => ?_, fun h => ?_⟩
  · simp only [Gauge, if_pos h]
  · simp only [Gauge, if_neg (not_lt.2 h)]
  · simp [FGauge, h]
  · simp [FGauge, h]

/-- Witness for C5 at a negative and a non-negative value of each kind. -/
theorem gauge_negative_resets_witness :
    Gauge ⟨"a".data, "p.".data⟩ "h".data "m".data (-2)
      = [send ⟨"a".data, "p.".data⟩ "h".data "m".data (intFmt 0 ++ "|g".data),
          send ⟨"a".data, "p.".data⟩ "h".data "m".data (intFmt (-2) ++ "|g".data)]
    ∧ Gauge ⟨"a".data, "p.".data⟩ "h".data "m".data 3
      = [send ⟨"a".data, "p.".data⟩ "h".data "m".data (intFmt 3 ++ "|g".data)]
    ∧ FGauge ⟨"a".data, "p.".data⟩ "h".data "m".data ⟨true, "-1.5".data⟩
      = [send ⟨"a".data, "p.".data⟩ "h".data "m".data (intFmt 0 ++ "|g".data),
          send ⟨"a".data, "p.".data⟩ "h".data "m".data ("-1.5".data ++ "|g".data)]
    ∧ FGauge ⟨"a".data, "p.".data⟩ "h".data "m".data ⟨false, "2.5".data⟩
      = [send ⟨"a".data, "p.".data⟩ "h".data "m".data ("2.5".data ++ "|g".data)] :=
  ⟨(gauge_negative_resets _ "h".data "m".data (-2) ⟨true, "-1.5".data⟩).1 (by decide),
    (gauge_negative_resets _ "h".data "m".data 3 ⟨true, "-1.5".data⟩).2.1 (by decide),
    (gauge_negative_resets _ "h".data "m".data 3 ⟨true, "-1.5".data⟩).2.2.1 rfl,
    (gauge_negative_resets _ "h".data "m".data 3 ⟨false, "2.5".data⟩).2.2.2 rfl⟩

/-- C6: a zero count submits nothing — `Incr` and `Decr` return (Go:
`nil`) before rendering anything; a nonzero count submits exactly one
counter metric, `name:N|c` for `Incr` and `name:-N|c` for `Decr`. -/
theorem counter_zero_not_emitted (c : StatsdClient) (host stat : Str) (n : Int) :
    (Incr c host stat 0 = [] ∧ Decr c host stat 0 = [])
    ∧ (n ≠ 0 →
        Incr c host stat n = [send c host stat (intFmt n ++ "|c".data)]
        ∧ Decr c host stat n = [send c host stat (intFmt (-n) ++ "|c".data)]) := by
  refine ⟨⟨?_, ?_⟩, fun h => ⟨?_, ?_⟩⟩
  · simp [Incr]
  · simp [Decr]
  · simp [Incr, h]
  · simp [Decr, h]

/-- Witness for C6 at counts 0 and 3. -/
theorem counter_zero_not_emitted_witness :
    (Incr ⟨"a".data, "p.".data⟩ "h".data "m".data 0 = []
      ∧ Decr ⟨"a".data, "p.".data⟩ "h".data "m".data 0 = [])
    ∧ (Incr ⟨"a".data, "p.".data⟩ "h".data "m".data 3
        = [send ⟨"a".data, "p.".data⟩ "h".data "m".data (intFmt 3 ++ "|c".data)]
      ∧ Decr ⟨"a".data, "p.".data⟩ "h".data "m".data 3
        = [send ⟨"a".data, "p.".data⟩ "h".data "m".data (intFmt (-3) ++ "|c".data)]) :=
  ⟨(counter_zero_not_emitted ⟨"a".data, "p.".data⟩ "h".data "m".data 3).1,
    (counter_zero_not_emitted ⟨"a".data, "p.".data⟩ "h".data "m".data 3).2
      (by decide)⟩

/-- C10: a zero delta submits exactly one metric whose value part is
`+0` — `GaugeDelta` takes the non-negative branch and prepends the
hand-written `+` to the `%d` rendering `0`; `FGaugeDelta` does the same
with the `%g` rendering of `0.0`; unlike zero counters, which emit
nothing. -/
theorem gaugeDelta_zero_emits_plus_zero (c : StatsdClient) (host stat : Str) :
    GaugeDelta c host stat 0 = [send c host stat "+0|g".data]
    ∧ FGaugeDelta c host stat GoFloat.zero = [send c host stat "+0|g".data] :=
  ⟨rfl, rfl⟩
